import Mathlib

/-!
Shallow embedding of the auto-alignment engine of `src/annotation_tools/auto_aligner.py`
(dagu-daren repository).  Python floats are modelled as rationals (`ℚ`), Python ints as
`ℤ`/`ℕ`, Python dicts with a fixed key set as structures, and the alignment-result /
stats dicts as explicit sum / structure types with `Option` fields for keys that are
only sometimes present.  All definitions are executable; the four core
rational operations are unsealed so that concrete runs reduce definitionally.
-/

unseal Rat.mul Rat.add Rat.sub Rat.inv

namespace DaguDaren

/-- `QuantizeMode` enum (`auto_aligner.py`, lines 7-17). -/
inductive QuantizeMode where
  | QUARTER
  | EIGHTH
  | SIXTEENTH
  | QUARTER_SWING
  | EIGHTH_SWING
  | SIXTEENTH_SWING
  | TRIPLET_QUARTER
  | TRIPLET_EIGHTH
  | OFF_GRID
deriving DecidableEq

/-- The `.value` string of each `QuantizeMode` member. -/
def QuantizeMode.value : QuantizeMode → String
  | .QUARTER => "1/4"
  | .EIGHTH => "1/8"
  | .SIXTEENTH => "1/16"
  | .QUARTER_SWING => "1/4+swing"
  | .EIGHTH_SWING => "1/8+swing"
  | .SIXTEENTH_SWING => "1/16+swing"
  | .TRIPLET_QUARTER => "1/4T"
  | .TRIPLET_EIGHTH => "1/8T"
  | .OFF_GRID => "off"

/-- `SwingAmount` enum (`auto_aligner.py`, lines 19-24). -/
inductive SwingAmount where
  | LIGHT
  | MEDIUM
  | HEAVY
  | CUSTOM
deriving DecidableEq

/-- The numeric `.value` of each `SwingAmount` member (0.55 / 0.60 / 0.67 / 0.0). -/
def SwingAmount.val : SwingAmount → ℚ
  | .LIGHT => 11/20
  | .MEDIUM => 3/5
  | .HEAVY => 67/100
  | .CUSTOM => 0

/-- `self.swing_ratios` dictionary built in `AutoAligner.__init__` (lines 34-39).
`CUSTOM` is not a key of that dictionary; the code never looks it up for `CUSTOM`,
so the value returned for `CUSTOM` here is irrelevant (we use 0). -/
def swing_ratios : SwingAmount → ℚ
  | .LIGHT => 11/20
  | .MEDIUM => 3/5
  | .HEAVY => 67/100
  | .CUSTOM => 0

/-- The `alignment_info` dict attached to an output annotation.  `reason` is only
present on preserved annotations, `conflict_resolved` is only set (to `True`) by the
conflict resolver; absent keys are modelled by `none` / `false`. -/
structure AlignmentInfo where
  original_time : ℚ
  adjustment : ℚ
  grid_position : String
  quantize_mode : String
  confidence : ℚ
  reason : Option String
  conflict_resolved : Bool
deriving DecidableEq, Inhabited

/-- An annotation record.  The source passes dicts with `time`, `type` and arbitrary
pass-through attributes (e.g. `id`, `duration`); `id` stands for the pass-through
part.  `alignment_info` is absent (`none`) on input annotations. -/
structure Event where
  id : String
  time : ℚ
  type : String
  alignment_info : Option AlignmentInfo
deriving DecidableEq, Inhabited

/-- The `beat_grid` dictionary consumed by `auto_align_annotations`
(keys `bpm`, `beat_interval`, `duration`, `beats`). -/
structure BeatGrid where
  bpm : ℚ
  beat_interval : ℚ
  duration : ℚ
  beats : List ℚ
deriving DecidableEq, Inhabited

/-- A grid-point dict produced by `_generate_quantization_grid`.  `swing_r` models
the `swing_ratio` key, present only on swing-mode points. -/
structure GridPoint where
  time : ℚ
  type : String
  strength : ℚ
  beat_position : String
  swing_r : Option ℚ
deriving DecidableEq, Inhabited

/-- The dict returned by `_find_best_alignment`: either the `aligned: True` shape
(lines 344-351) or the `aligned: False` shape, whose `closest_distance` /
`tolerance` keys are present only for the `outside_tolerance` reason. -/
inductive AlignmentResult where
  | aligned (new_time adjustment : ℚ) (grid_position : String)
      (confidence : ℚ) (original_distance : ℚ)
  | not_aligned (reason : String) (closest_distance : Option ℚ) (tolerance : Option ℚ)
deriving DecidableEq

/-- Insert a point into a time-sorted list, before the first strictly later
point (so that earlier-emitted points with an equal time stay in front —
stability). -/
def insert_by_time (p : GridPoint) : List GridPoint → List GridPoint
  | [] => [p]
  | q :: rest => if q.time < p.time then q :: insert_by_time p rest else p :: q :: rest

/-- Stable sort of grid points by time.  Python's `list.sort(key=...)` is a
stable sort, and every stable sort with the same key yields the same output
list, so this insertion sort is an exact model of line 309. -/
def sort_by_time : List GridPoint → List GridPoint
  | [] => []
  | p :: rest => insert_by_time p (sort_by_time rest)

/-- The `grid_points` list built by `_generate_quantization_grid` (lines 198-307)
before the final sort: the mode's points, emitted per shifted beat in
construction order. -/
def raw_grid_points (beat_grid : BeatGrid) (quantize_mode : QuantizeMode)
    (swing_amount : SwingAmount) (custom_swing : ℚ) (first_measure_start : ℚ) :
    List GridPoint :=
  let beats := beat_grid.beats.map (fun b => b + first_measure_start)
  let beat_interval := beat_grid.beat_interval
  let duration := beat_grid.duration
  match quantize_mode with
    | .QUARTER =>
        beats.filterMap fun beat_time =>
          if beat_time ≤ duration then
            some { time := beat_time, type := "quarter", strength := 1,
                   beat_position := "on_beat", swing_r := none }
          else none
    | .EIGHTH =>
        beats.flatMap fun beat_time =>
          if beat_time ≤ duration then
            { time := beat_time, type := "eighth_on", strength := 1,
              beat_position := "on_beat", swing_r := none } ::
            (if beat_time + beat_interval / 2 ≤ duration then
              [{ time := beat_time + beat_interval / 2, type := "eighth_off",
                 strength := 7/10, beat_position := "off_beat", swing_r := none }]
            else [])
          else []
    | .SIXTEENTH =>
        beats.flatMap fun beat_time =>
          if beat_time ≤ duration then
            (List.range 4).filterMap fun (i : ℕ) =>
              let sixteenth_time := beat_time + ((i : ℚ) * beat_interval / 4)
              if sixteenth_time ≤ duration then
                some { time := sixteenth_time, type := "sixteenth_" ++ toString i,
                       strength := if i = 0 then 1 else if i = 2 then 4/5 else 3/5,
                       beat_position := if i = 0 then "on_beat" else "subdivision",
                       swing_r := none }
              else none
          else []
    | .EIGHTH_SWING | .QUARTER_SWING | .SIXTEENTH_SWING =>
        let sr := if swing_amount = .CUSTOM then custom_swing else swing_ratios swing_amount
        let subdivision : ℕ :=
          match quantize_mode with
          | .EIGHTH_SWING => 2
          | .QUARTER_SWING => 1
          | _ => 4
        beats.flatMap fun beat_time =>
          if beat_time ≤ duration then
            (List.range subdivision).filterMap fun (i : ℕ) =>
              let note_time :=
                if i % 2 = 0 then
                  beat_time + ((i : ℚ) * beat_interval / (subdivision : ℚ))
                else
                  beat_time + ((i : ℚ) * beat_interval / (subdivision : ℚ)) +
                    (beat_interval / (subdivision : ℚ)) * (sr - 1/2) * 2
              if note_time ≤ duration then
                some { time := note_time,
                       type := quantize_mode.value ++ "_" ++ toString i,
                       strength := if i = 0 then 1 else 7/10,
                       beat_position := if i % 2 = 0 then "swing_on" else "swing_off",
                       swing_r := some sr }
              else none
          else []
    | .TRIPLET_EIGHTH =>
        beats.flatMap fun beat_time =>
          if beat_time ≤ duration then
            (List.range 3).filterMap fun (i : ℕ) =>
              let triplet_time := beat_time + ((i : ℚ) * beat_interval / 3)
              if triplet_time ≤ duration then
                some { time := triplet_time, type := "triplet_eighth_" ++ toString i,
                       strength := if i = 0 then 1 else 3/5,
                       beat_position := "triplet", swing_r := none }
              else none
          else []
    | .TRIPLET_QUARTER | .OFF_GRID => []

/-- `AutoAligner._generate_quantization_grid` (lines 188-312): the raw points of
the mode, sorted by time (stably — line 309). -/
def generate_quantization_grid (beat_grid : BeatGrid) (quantize_mode : QuantizeMode)
    (swing_amount : SwingAmount) (custom_swing : ℚ) (first_measure_start : ℚ) :
    List GridPoint :=
  sort_by_time (raw_grid_points beat_grid quantize_mode swing_amount custom_swing
    first_measure_start)

/-- Inner loop of `np.argmin`: scan the remaining list keeping the index of the
first strictly-smallest element seen so far (numpy returns the first occurrence
of the minimum). -/
def np_argmin_go : List ℚ → ℕ → ℕ → ℚ → ℕ
  | [], _, best_idx, _ => best_idx
  | x :: xs, cur, best_idx, best =>
      if x < best then np_argmin_go xs (cur + 1) cur x
      else np_argmin_go xs (cur + 1) best_idx best

/-- `np.argmin` over a list of rationals (first index attaining the minimum);
only ever applied to non-empty lists in the source (`distances` of a non-empty
grid); returns 0 on `[]`. -/
def np_argmin : List ℚ → ℕ
  | [] => 0
  | x :: xs => np_argmin_go xs 1 0 x

/-- `AutoAligner._find_best_alignment` (lines 314-358). -/
def find_best_alignment (original_time : ℚ) (quant_grid : List GridPoint)
    (tolerance : ℚ) (beat_interval : ℚ) : AlignmentResult :=
  match quant_grid with
  | [] => .not_aligned "empty_grid" none none
  | _ =>
    let distances := quant_grid.map (fun p => |p.time - original_time|)
    let closest_idx := np_argmin distances
    let closest_distance := distances.getD closest_idx 0
    let tolerance_seconds := tolerance * beat_interval
    if closest_distance ≤ tolerance_seconds then
      let closest_point := quant_grid.getD closest_idx default
      let adjustment := closest_point.time - original_time
      let distance_factor := 1 - closest_distance / tolerance_seconds
      let strength_factor := closest_point.strength
      let confidence := distance_factor * (7/10) + strength_factor * (3/10)
      .aligned closest_point.time adjustment closest_point.type confidence closest_distance
    else
      .not_aligned "outside_tolerance" (some closest_distance) (some tolerance_seconds)

/-- The `alignment_stats` dictionary (lines 87-97); its key set is fixed. -/
structure AlignmentStats where
  total_processed : ℤ
  aligned_count : ℤ
  preserved_count : ℤ
  conflicts_resolved : ℤ
  average_adjustment : ℚ
  max_adjustment : ℚ
  adjustments : List ℚ
  outside_tolerance_count : ℤ
  closest_distances : List ℚ
deriving DecidableEq, Inhabited

/-- The initial value of `alignment_stats`. -/
def init_stats : AlignmentStats :=
  { total_processed := 0, aligned_count := 0, preserved_count := 0,
    conflicts_resolved := 0, average_adjustment := 0, max_adjustment := 0,
    adjustments := [], outside_tolerance_count := 0, closest_distances := [] }

/-- A value stored under one key of the stats dictionary. -/
inductive StatValue where
  | int (n : ℤ)
  | num (q : ℚ)
  | nums (l : List ℚ)
deriving DecidableEq

/-- The stats structure rendered back as the Python dict it models, with its keys
in the construction order of lines 87-97. -/
def stats_dict (s : AlignmentStats) : List (String × StatValue) :=
  [("total_processed", .int s.total_processed),
   ("aligned_count", .int s.aligned_count),
   ("preserved_count", .int s.preserved_count),
   ("conflicts_resolved", .int s.conflicts_resolved),
   ("average_adjustment", .num s.average_adjustment),
   ("max_adjustment", .num s.max_adjustment),
   ("adjustments", .nums s.adjustments),
   ("outside_tolerance_count", .int s.outside_tolerance_count),
   ("closest_distances", .nums s.closest_distances)]

/-- The preserved copy built in the `elif preserve_off_beat` branch (lines 123-134):
original time kept, info block with adjustment 0, `off_beat` position,
`preserved` mode label, confidence 1 and the matcher's failure reason. -/
def preserved_copy (ann : Event) (reason : String) : Event :=
  let info : AlignmentInfo :=
    { original_time := ann.time, adjustment := 0, grid_position := "off_beat",
      quantize_mode := "preserved", confidence := 1,
      reason := some reason, conflict_resolved := false }
  { ann with alignment_info := some info }

/-- One iteration of the per-annotation loop (lines 99-145), threading the
`(aligned_annotations, alignment_stats)` accumulator. -/
def process_event (quantize_mode : QuantizeMode) (quant_grid : List GridPoint)
    (tolerance : ℚ) (beat_interval : ℚ) (preserve_off_beat : Bool)
    (acc : List Event × AlignmentStats) (ann : Event) :
    List Event × AlignmentStats :=
  let aligned_annotations := acc.1
  let stats := acc.2
  let original_time := ann.time
  match find_best_alignment original_time quant_grid tolerance beat_interval with
  | .aligned new_time adjustment grid_position confidence _ =>
      let info : AlignmentInfo :=
        { original_time := original_time, adjustment := adjustment,
          grid_position := grid_position, quantize_mode := quantize_mode.value,
          confidence := confidence, reason := none, conflict_resolved := false }
      let aligned_ann : Event :=
        { ann with time := new_time, alignment_info := some info }
      (aligned_annotations ++ [aligned_ann],
       { stats with aligned_count := stats.aligned_count + 1,
                    adjustments := stats.adjustments ++ [|adjustment|],
                    total_processed := stats.total_processed + 1 })
  | .not_aligned reason closest_distance _ =>
      if preserve_off_beat then
        let stats' :=
          if reason = "outside_tolerance" then
            { stats with preserved_count := stats.preserved_count + 1,
                         outside_tolerance_count := stats.outside_tolerance_count + 1,
                         closest_distances :=
                           stats.closest_distances ++ [closest_distance.getD 0],
                         total_processed := stats.total_processed + 1 }
          else
            { stats with preserved_count := stats.preserved_count + 1,
                         total_processed := stats.total_processed + 1 }
        (aligned_annotations ++ [preserved_copy ann reason], stats')
      else
        (aligned_annotations, { stats with total_processed := stats.total_processed + 1 })

/-- `np.mean` of a list of rationals. -/
def np_mean (l : List ℚ) : ℚ := l.sum / (l.length : ℚ)

/-- `np.max` / builtin `max` of a list of rationals (only applied to non-empty
lists in the source; returns 0 on `[]`). -/
def np_max : List ℚ → ℚ
  | [] => 0
  | x :: xs => xs.foldl max x

/-- Round-half-to-even to an integer, as Python's builtin `round`. -/
def py_round_half_even (q : ℚ) : ℤ :=
  let f := ⌊q⌋
  let frac := q - (f : ℚ)
  if frac < 1/2 then f
  else if 1/2 < frac then f + 1
  else if f % 2 = 0 then f else f + 1

/-- `round(t, 6)` — the microsecond time key of `_resolve_conflicts` (line 366). -/
def time_key (t : ℚ) : ℚ := ((py_round_half_even (t * 1000000) : ℚ)) / 1000000

/-- Append `a` to the group of key `k`, or append a fresh `(k, [a])` group at the
end — the insertion-order dict building of lines 364-369. -/
def insert_grouped (groups : List (ℚ × List Event)) (k : ℚ) (a : Event) :
    List (ℚ × List Event) :=
  match groups with
  | [] => [(k, [a])]
  | (k', g) :: rest =>
      if k' = k then (k', g ++ [a]) :: rest
      else (k', g) :: insert_grouped rest k a

/-- The `time_groups` dict of `_resolve_conflicts`: groups in first-occurrence
order of their rounded time key, members in input order. -/
def group_by_time (anns : List Event) : List (ℚ × List Event) :=
  anns.foldl (fun groups a => insert_grouped groups (time_key a.time) a) []

/-- Python `max(group, key=f)`: first element attaining the maximal key.
Only applied to non-empty groups in the source; returns `default` on `[]`. -/
def py_max_by (f : Event → ℚ) : List Event → Event
  | [] => default
  | a :: rest => rest.foldl (fun b x => if f b < f x then x else b) a

/-- The per-group body of `_resolve_conflicts` (lines 373-405).  A group of size 1
passes through; otherwise, if all members share one `type`, only the member with
the highest confidence (`x.get('alignment_info', {}).get('confidence', 0)`) is
kept, else every member is kept, the `i`-th (0-based) shifted `i` ms later with
its info flagged `conflict_resolved` (the source writes that flag through the
`alignment_info` key and would raise if it were absent; emitted events always
carry it, modelled here by `Option.map`). -/
def resolve_group (group : List Event) : List Event :=
  match group with
  | [a] => [a]
  | _ =>
    let conf := fun (a : Event) => ((a.alignment_info.map (fun i => i.confidence)).getD 0)
    let best := py_max_by conf group
    if ((group.map (fun a => a.type)).dedup).length = 1 then
      [best]
    else
      group.enum.map fun (p : ℕ × Event) =>
        if p.1 = 0 then p.2
        else
          let info' := p.2.alignment_info.map (fun i => ({ i with conflict_resolved := true }))
          { p.2 with time := p.2.time + (1/1000) * (p.1 : ℚ), alignment_info := info' }

/-- `AutoAligner._resolve_conflicts` (lines 360-407). -/
def resolve_conflicts (anns : List Event) : List Event :=
  (group_by_time anns).flatMap (fun g => resolve_group g.2)

/-- The `quantization_info` dict of the success return (lines 170-177). -/
structure QuantizationInfo where
  mode : String
  swing_value : ℚ
  beat_interval : ℚ
  bpm : ℚ
  grid_points : ℤ
  tolerance_seconds : ℚ
deriving DecidableEq, Inhabited

/-- The dictionary returned by `auto_align_annotations` on the success path. -/
structure AlignResult where
  aligned_annotations : List Event
  alignment_stats : AlignmentStats
  quantization_info : QuantizationInfo
deriving DecidableEq, Inhabited

/-- The per-annotation loop of lines 99-145 as a fold, exposed so that the
emitted (pre-conflict-resolution) list can be named. -/
def align_fold (anns : List Event) (quantize_mode : QuantizeMode)
    (quant_grid : List GridPoint) (tolerance : ℚ) (beat_interval : ℚ)
    (preserve_off_beat : Bool) : List Event × AlignmentStats :=
  anns.foldl (process_event quantize_mode quant_grid tolerance beat_interval
    preserve_off_beat) ([], init_stats)

/-- `AutoAligner.auto_align_annotations` (lines 41-178), success path.  The typed
model cannot raise: the `except` branch of lines 180-186 (original annotations
plus `{'error': ...}` dicts) is reachable in the source only via exceptions such
as missing `beat_grid` keys, which the typed `BeatGrid` rules out. -/
def auto_align_annotations (anns : List Event) (beat_grid : BeatGrid)
    (quantize_mode : QuantizeMode) (swing_amount : SwingAmount) (custom_swing : ℚ)
    (tolerance : ℚ) (preserve_off_beat : Bool) (first_measure_start : ℚ) :
    AlignResult :=
  let bpm := beat_grid.bpm
  let beat_interval := beat_grid.beat_interval
  let quant_grid := generate_quantization_grid beat_grid quantize_mode swing_amount
    custom_swing first_measure_start
  let folded := align_fold anns quantize_mode quant_grid tolerance beat_interval
    preserve_off_beat
  let emitted := folded.1
  let stats0 := folded.2
  let stats1 :=
    if stats0.adjustments ≠ [] then
      { stats0 with average_adjustment := np_mean stats0.adjustments,
                    max_adjustment := np_max stats0.adjustments }
    else stats0
  let resolved := resolve_conflicts emitted
  let stats2 := { stats1 with
    conflicts_resolved := (anns.length : ℤ) - (resolved.length : ℤ) }
  { aligned_annotations := resolved,
    alignment_stats := stats2,
    quantization_info :=
      { mode := quantize_mode.value,
        swing_value :=
          if swing_amount ≠ .CUSTOM then swing_amount.val else custom_swing,
        beat_interval := beat_interval,
        bpm := bpm,
        grid_points := (quant_grid.length : ℤ),
        tolerance_seconds := tolerance * beat_interval } }


/-! ## Basic lemmas about the stable sort -/

theorem insert_by_time_perm (p : GridPoint) (l : List GridPoint) :
    (insert_by_time p l).Perm (p :: l) := by
  induction l with
  | nil => simp [insert_by_time]
  | cons q rest ih =>
      simp only [insert_by_time]
      split
      · exact ((ih.cons q).trans (List.Perm.swap p q rest))
      · exact List.Perm.refl _

theorem sort_by_time_perm (l : List GridPoint) : (sort_by_time l).Perm l := by
  induction l with
  | nil => simp [sort_by_time]
  | cons p rest ih =>
      exact (insert_by_time_perm p (sort_by_time rest)).trans (ih.cons p)

theorem mem_sort_by_time {a : GridPoint} {l : List GridPoint} :
    a ∈ sort_by_time l ↔ a ∈ l :=
  (sort_by_time_perm l).mem_iff

theorem sorted_insert_by_time (p : GridPoint) (l : List GridPoint)
    (h : l.Pairwise (fun a b => a.time ≤ b.time)) :
    (insert_by_time p l).Pairwise (fun a b => a.time ≤ b.time) := by
  induction l with
  | nil => simp [insert_by_time]
  | cons q rest ih =>
      rcases List.pairwise_cons.mp h with ⟨hq, hrest⟩
      simp only [insert_by_time]
      split
      · rename_i hlt
        refine List.pairwise_cons.mpr ⟨?_, ih hrest⟩
        intro b hb
        rcases List.mem_cons.mp ((insert_by_time_perm p rest).mem_iff.mp hb) with hb | hb
        · subst hb; exact le_of_lt hlt
        · exact hq b hb
      · rename_i hge
        refine List.pairwise_cons.mpr ⟨?_, h⟩
        intro b hb
        rcases List.mem_cons.mp hb with hb | hb
        · subst hb; exact le_of_not_lt hge
        · exact le_trans (le_of_not_lt hge) (hq b hb)

theorem sorted_sort_by_time (l : List GridPoint) :
    (sort_by_time l).Pairwise (fun a b => a.time ≤ b.time) := by
  induction l with
  | nil => simp [sort_by_time]
  | cons p rest ih => exact sorted_insert_by_time p (sort_by_time rest) ih

/-! ## Empty-grid behaviour of the pipeline -/

theorem raw_grid_points_nil_beats (bg : BeatGrid) (qm : QuantizeMode)
    (sw : SwingAmount) (cs org : ℚ) (h : bg.beats = []) :
    raw_grid_points bg qm sw cs org = [] := by
  cases qm <;> simp [raw_grid_points, h]

theorem generate_grid_nil_beats (bg : BeatGrid) (qm : QuantizeMode)
    (sw : SwingAmount) (cs org : ℚ) (h : bg.beats = []) :
    generate_quantization_grid bg qm sw cs org = [] := by
  rw [generate_quantization_grid, raw_grid_points_nil_beats bg qm sw cs org h]
  rfl

theorem generate_grid_triplet_quarter (bg : BeatGrid) (sw : SwingAmount) (cs org : ℚ) :
    generate_quantization_grid bg .TRIPLET_QUARTER sw cs org = [] := rfl

theorem generate_grid_off (bg : BeatGrid) (sw : SwingAmount) (cs org : ℚ) :
    generate_quantization_grid bg .OFF_GRID sw cs org = [] := rfl

theorem find_best_alignment_nil (t tol bi : ℚ) :
    find_best_alignment t [] tol bi = .not_aligned "empty_grid" none none := rfl

theorem resolve_conflicts_nil : resolve_conflicts [] = [] := rfl

theorem process_event_nil_grid (qm : QuantizeMode) (tol bi : ℚ) (p : Bool)
    (acc : List Event × AlignmentStats) (a : Event) :
    process_event qm [] tol bi p acc a =
      if p then
        (acc.1 ++ [preserved_copy a "empty_grid"],
         { acc.2 with preserved_count := acc.2.preserved_count + 1,
                      total_processed := acc.2.total_processed + 1 })
      else (acc.1, { acc.2 with total_processed := acc.2.total_processed + 1 }) := by
  cases p <;>
    simp [process_event, find_best_alignment]

theorem foldl_process_nil_grid_true (qm : QuantizeMode) (tol bi : ℚ)
    (anns : List Event) :
    ∀ acc : List Event × AlignmentStats,
      anns.foldl (process_event qm [] tol bi true) acc
        = (acc.1 ++ anns.map (fun a => preserved_copy a "empty_grid"),
           { acc.2 with preserved_count := acc.2.preserved_count + (anns.length : ℤ),
                        total_processed := acc.2.total_processed + (anns.length : ℤ) }) := by
  induction anns with
  | nil => intro acc; simp
  | cons a rest ih =>
      intro acc
      rw [List.foldl_cons, process_event_nil_grid]
      simp only [if_true]
      rw [ih]
      simp [AlignmentStats.mk.injEq, Prod.ext_iff]
      constructor
      · omega
      · omega

theorem foldl_process_nil_grid_false (qm : QuantizeMode) (tol bi : ℚ)
    (anns : List Event) :
    ∀ acc : List Event × AlignmentStats,
      anns.foldl (process_event qm [] tol bi false) acc
        = (acc.1,
           { acc.2 with total_processed := acc.2.total_processed + (anns.length : ℤ) }) := by
  induction anns with
  | nil => intro acc; simp
  | cons a rest ih =>
      intro acc
      rw [List.foldl_cons, process_event_nil_grid]
      simp only [if_false]
      rw [ih]
      simp [AlignmentStats.mk.injEq, Prod.ext_iff]
      omega

theorem align_fold_nil_grid (anns : List Event) (qm : QuantizeMode)
    (tol bi : ℚ) (p : Bool) :
    align_fold anns qm [] tol bi p
      = ((if p then anns.map (fun a => preserved_copy a "empty_grid") else []),
         { init_stats with
             preserved_count := if p then (anns.length : ℤ) else 0,
             total_processed := (anns.length : ℤ) }) := by
  cases p
  · rw [align_fold, foldl_process_nil_grid_false]
    simp [init_stats]
  · rw [align_fold, foldl_process_nil_grid_true]
    simp [init_stats]

theorem auto_align_empty_grid (anns : List Event) (bg : BeatGrid)
    (qm : QuantizeMode) (sw : SwingAmount) (cs tol : ℚ) (p : Bool) (org : ℚ)
    (hg : generate_quantization_grid bg qm sw cs org = []) :
    (auto_align_annotations anns bg qm sw cs tol p org).aligned_annotations
      = (if p then resolve_conflicts (anns.map (fun a => preserved_copy a "empty_grid"))
         else [])
    ∧ (auto_align_annotations anns bg qm sw cs tol p org).alignment_stats
      = { total_processed := (anns.length : ℤ), aligned_count := 0,
          preserved_count := (if p then (anns.length : ℤ) else 0),
          conflicts_resolved := (anns.length : ℤ)
            - (((if p then
                  resolve_conflicts (anns.map (fun a => preserved_copy a "empty_grid"))
                 else []) : List Event).length : ℤ),
          average_adjustment := 0, max_adjustment := 0, adjustments := [],
          outside_tolerance_count := 0, closest_distances := [] } := by
  unfold auto_align_annotations
  dsimp only
  rw [hg, align_fold_nil_grid]
  cases p <;> simp [init_stats, resolve_conflicts_nil]

/-! ## Concrete sample inputs used by counterexamples and witnesses -/

/-- A sample input annotation (no `alignment_info`, as on input). -/
def sample_don : Event := { id := "1", time := 1, type := "don", alignment_info := none }

/-- A second sample annotation, same time and type as `sample_don`. -/
def sample_don2 : Event := { id := "2", time := 1, type := "don", alignment_info := none }

/-- A sample beat grid: 120 BPM, beats every 0.5 s. -/
def sample_bg : BeatGrid :=
  { bpm := 120, beat_interval := 1/2, duration := 10, beats := [0, 1/2, 1] }

/-- A beat grid with an empty beat list (a "malformed timeline" in the words of
the specification). -/
def empty_beats_bg : BeatGrid :=
  { bpm := 120, beat_interval := 1/2, duration := 10, beats := [] }

/-! ## C1 — what `conflicts_resolved` actually counts -/

/-- C1 (counterexample): with `preserve_off_beat = false` and an empty grid
(`off` mode), the single input event is dropped, the emitted list fed to the
Conflict Resolver is empty and the resolver removes nothing — yet
`conflicts_resolved` is 1, not the emitted-minus-resolved delta 0.  This
refutes the claim that `conflicts_resolved` equals the count of the emitted
list minus the count of the resolver's output. -/
theorem conflicts_resolved_counts_dropped_cex :
    (auto_align_annotations [sample_don] sample_bg .OFF_GRID .MEDIUM (3/5) (1/4)
      false 0).alignment_stats.conflicts_resolved = 1
    ∧ (align_fold [sample_don] .OFF_GRID
        (generate_quantization_grid sample_bg .OFF_GRID .MEDIUM (3/5) 0) (1/4)
        sample_bg.beat_interval false).1 = []
    ∧ ¬ ((auto_align_annotations [sample_don] sample_bg .OFF_GRID .MEDIUM (3/5) (1/4)
          false 0).alignment_stats.conflicts_resolved
        = (((align_fold [sample_don] .OFF_GRID
              (generate_quantization_grid sample_bg .OFF_GRID .MEDIUM (3/5) 0) (1/4)
              sample_bg.beat_interval false).1).length : ℤ)
          - ((resolve_conflicts ((align_fold [sample_don] .OFF_GRID
              (generate_quantization_grid sample_bg .OFF_GRID .MEDIUM (3/5) 0) (1/4)
              sample_bg.beat_interval false).1)).length : ℤ)) := by
  refine ⟨by decide, by decide, by decide⟩

/-- C1 (amended): `conflicts_resolved` is the count of the ORIGINAL input list
minus the count of the Conflict Resolver's output (line 154:
`len(annotations) - len(aligned_annotations)`), where the resolver runs over
the emitted (aligned + preserved) list; events dropped for being outside
tolerance with `preserve_off_beat = false` therefore DO contribute to it. -/
theorem conflicts_resolved_eq_input_minus_output (anns : List Event)
    (bg : BeatGrid) (qm : QuantizeMode) (sw : SwingAmount) (cs tol : ℚ)
    (p : Bool) (org : ℚ) :
    (auto_align_annotations anns bg qm sw cs tol p org).alignment_stats.conflicts_resolved
      = (anns.length : ℤ)
        - ((auto_align_annotations anns bg qm sw cs tol p org).aligned_annotations.length : ℤ)
    ∧ (auto_align_annotations anns bg qm sw cs tol p org).aligned_annotations
      = resolve_conflicts ((align_fold anns qm
          (generate_quantization_grid bg qm sw cs org) tol bg.beat_interval p).1) :=
  ⟨rfl, rfl⟩

/-! ## C2 — behaviour on a malformed timeline -/

/-- No stats dictionary produced on the success path carries an `error` key. -/
theorem stats_dict_lookup_error (s : AlignmentStats) :
    (stats_dict s).lookup "error" = none := rfl

/-- C2 (counterexample): an empty beat list is one of the claim's "malformed
timeline" conditions, yet the call does NOT return the original event list
with error-tagged stats: it completes normally — the output event carries an
attached info block (so differs from the input), and the stats dict has no
`error` key but the ordinary counters. -/
theorem malformed_timeline_cex :
    (auto_align_annotations [sample_don] empty_beats_bg .QUARTER .MEDIUM (3/5)
        (1/4) true 0).aligned_annotations = [preserved_copy sample_don "empty_grid"]
    ∧ (auto_align_annotations [sample_don] empty_beats_bg .QUARTER .MEDIUM (3/5)
        (1/4) true 0).aligned_annotations ≠ [sample_don]
    ∧ (stats_dict (auto_align_annotations [sample_don] empty_beats_bg .QUARTER
        .MEDIUM (3/5) (1/4) true 0).alignment_stats).lookup "error" = none
    ∧ (auto_align_annotations [sample_don] empty_beats_bg .QUARTER .MEDIUM (3/5)
        (1/4) true 0).alignment_stats.preserved_count = 1 := by
  refine ⟨by decide, by decide, rfl, by decide⟩

/-- C2 (amended): a timeline with an empty beat list does not abort the call
and is not error-tagged; the grid degenerates to empty, so every event is
reported `empty_grid` and preserved or dropped per the `preserve_off_beat`
policy, and the stats hold the ordinary counters (no `error` key).  In the
source only a raised exception (e.g. a missing `beat_grid` key) reaches the
fallback that returns the originals with `{'error': ...}` stats; the typed
model cannot raise. -/
theorem empty_beats_no_error (anns : List Event) (bg : BeatGrid)
    (qm : QuantizeMode) (sw : SwingAmount) (cs tol : ℚ) (p : Bool) (org : ℚ)
    (h : bg.beats = []) :
    (auto_align_annotations anns bg qm sw cs tol p org).aligned_annotations
      = (if p then resolve_conflicts (anns.map (fun a => preserved_copy a "empty_grid"))
         else [])
    ∧ (stats_dict (auto_align_annotations anns bg qm sw cs tol p org).alignment_stats).lookup
        "error" = none
    ∧ (auto_align_annotations anns bg qm sw cs tol p org).alignment_stats.aligned_count = 0
    ∧ (auto_align_annotations anns bg qm sw cs tol p org).alignment_stats.preserved_count
      = (if p then (anns.length : ℤ) else 0) := by
  obtain ⟨h1, h2⟩ := auto_align_empty_grid anns bg qm sw cs tol p org
    (generate_grid_nil_beats bg qm sw cs org h)
  refine ⟨h1, stats_dict_lookup_error _, ?_, ?_⟩ <;> rw [h2]

/-- C2 witness: the amended statement, instantiated at a concrete empty-beat
timeline with one event and `preserve_off_beat = true`. -/
theorem empty_beats_no_error_witness :
    (auto_align_annotations [sample_don] empty_beats_bg .QUARTER .MEDIUM (3/5)
        (1/4) true 0).aligned_annotations
      = (if true then
          resolve_conflicts ([sample_don].map (fun a => preserved_copy a "empty_grid"))
         else [])
    ∧ (stats_dict (auto_align_annotations [sample_don] empty_beats_bg .QUARTER
        .MEDIUM (3/5) (1/4) true 0).alignment_stats).lookup "error" = none
    ∧ (auto_align_annotations [sample_don] empty_beats_bg .QUARTER .MEDIUM (3/5)
        (1/4) true 0).alignment_stats.aligned_count = 0
    ∧ (auto_align_annotations [sample_don] empty_beats_bg .QUARTER .MEDIUM (3/5)
        (1/4) true 0).alignment_stats.preserved_count
      = (if true then (([sample_don] : List Event).length : ℤ) else 0) :=
  empty_beats_no_error [sample_don] empty_beats_bg .QUARTER .MEDIUM (3/5) (1/4)
    true 0 rfl

/-! ## C3 — which moments the final stats actually contain -/

theorem process_event_avg_max (qm : QuantizeMode) (grid : List GridPoint)
    (tol bi : ℚ) (p : Bool) (acc : List Event × AlignmentStats) (a : Event) :
    (process_event qm grid tol bi p acc a).2.average_adjustment
        = acc.2.average_adjustment
    ∧ (process_event qm grid tol bi p acc a).2.max_adjustment
        = acc.2.max_adjustment := by
  cases hfb : find_best_alignment a.time grid tol bi <;>
    simp only [process_event, hfb] <;> (try split_ifs) <;> simp

theorem foldl_process_avg_max (qm : QuantizeMode) (grid : List GridPoint)
    (tol bi : ℚ) (p : Bool) (anns : List Event) :
    ∀ acc : List Event × AlignmentStats,
      (anns.foldl (process_event qm grid tol bi p) acc).2.average_adjustment
          = acc.2.average_adjustment
      ∧ (anns.foldl (process_event qm grid tol bi p) acc).2.max_adjustment
          = acc.2.max_adjustment := by
  induction anns with
  | nil => intro acc; exact ⟨rfl, rfl⟩
  | cons a rest ih =>
      intro acc
      rw [List.foldl_cons]
      rcases ih (process_event qm grid tol bi p acc a) with ⟨ha, hm⟩
      rcases process_event_avg_max qm grid tol bi p acc a with ⟨ha', hm'⟩
      exact ⟨ha.trans ha', hm.trans hm'⟩

/-- C3 (amended): the final stats hold the mean and max of the recorded
adjustment magnitudes (0 when none were recorded), but for the recorded
closest-distances of rejected events they hold only the RAW list — no mean or
max of the distances is stored (lines 156-161 only print them); the fixed key
set of the stats dict contains no entry for them. -/
theorem stats_moments_shape (anns : List Event) (bg : BeatGrid)
    (qm : QuantizeMode) (sw : SwingAmount) (cs tol : ℚ) (p : Bool) (org : ℚ) :
    ((auto_align_annotations anns bg qm sw cs tol p org).alignment_stats.average_adjustment
      = (if (auto_align_annotations anns bg qm sw cs tol p org).alignment_stats.adjustments = []
         then 0
         else np_mean (auto_align_annotations anns bg qm sw cs tol p org).alignment_stats.adjustments))
    ∧ ((auto_align_annotations anns bg qm sw cs tol p org).alignment_stats.max_adjustment
      = (if (auto_align_annotations anns bg qm sw cs tol p org).alignment_stats.adjustments = []
         then 0
         else np_max (auto_align_annotations anns bg qm sw cs tol p org).alignment_stats.adjustments))
    ∧ (stats_dict (auto_align_annotations anns bg qm sw cs tol p org).alignment_stats).lookup
        "closest_distances"
      = some (.nums (auto_align_annotations anns bg qm sw cs tol p org).alignment_stats.closest_distances)
    ∧ (stats_dict (auto_align_annotations anns bg qm sw cs tol p org).alignment_stats).map
        Prod.fst
      = ["total_processed", "aligned_count", "preserved_count", "conflicts_resolved",
         "average_adjustment", "max_adjustment", "adjustments",
         "outside_tolerance_count", "closest_distances"] := by
  have h0 := foldl_process_avg_max qm (generate_quantization_grid bg qm sw cs org)
    tol bg.beat_interval p anns ([], init_stats)
  have ha : (List.foldl (process_event qm (generate_quantization_grid bg qm sw cs org)
      tol bg.beat_interval p) ([], init_stats) anns).2.average_adjustment = 0 :=
    h0.1.trans rfl
  have hm : (List.foldl (process_event qm (generate_quantization_grid bg qm sw cs org)
      tol bg.beat_interval p) ([], init_stats) anns).2.max_adjustment = 0 :=
    h0.2.trans rfl
  refine ⟨?_, ?_, rfl, rfl⟩ <;>
  · unfold auto_align_annotations
    dsimp only
    rw [align_fold]
    by_cases hadj :
      (List.foldl (process_event qm (generate_quantization_grid bg qm sw cs org)
        tol bg.beat_interval p) ([], init_stats) anns).2.adjustments = [] <;>
      simp [hadj, ha, hm]

/-- Two annotations outside tolerance, used for the C3 counterexample. -/
def sample_ka_late : Event := { id := "4", time := 173/100, type := "ka", alignment_info := none }

/-- Second out-of-tolerance annotation for the C3 counterexample. -/
def sample_don_late : Event := { id := "5", time := 14/5, type := "don", alignment_info := none }

/-- C3 (counterexample): a call recording closest-distances 73/100 and 9/5
produces a stats dict whose complete contents are listed below: no entry holds
their mean 253/200 or their max 9/5 — only the raw list is stored, so the
claim that the stats contain the mean and the max of the recorded
closest-distances is false. -/
theorem distance_moments_absent_cex :
    stats_dict (auto_align_annotations [sample_ka_late, sample_don_late] sample_bg
        .QUARTER .MEDIUM (3/5) (1/4) true 0).alignment_stats
      = [("total_processed", .int 2), ("aligned_count", .int 0),
         ("preserved_count", .int 2), ("conflicts_resolved", .int 0),
         ("average_adjustment", .num 0), ("max_adjustment", .num 0),
         ("adjustments", .nums []), ("outside_tolerance_count", .int 2),
         ("closest_distances", .nums [73/100, 9/5])]
    ∧ np_mean [73/100, 9/5] = 253/200
    ∧ np_max [73/100, 9/5] = 9/5
    ∧ ((stats_dict (auto_align_annotations [sample_ka_late, sample_don_late] sample_bg
        .QUARTER .MEDIUM (3/5) (1/4) true 0).alignment_stats).all
          (fun kv => decide (kv.2 ≠ StatValue.num (253/200))
            && decide (kv.2 ≠ StatValue.num (9/5)))) = true := by
  refine ⟨by decide, by decide, by decide, by decide⟩

/-! ## C4 — conflict resolution of mixed-kind groups -/

/-- An alignment-info block for constructing resolver inputs. -/
def cex_info : AlignmentInfo :=
  { original_time := 1, adjustment := 0, grid_position := "quarter",
    quantize_mode := "1/4", confidence := 9/10, reason := none,
    conflict_resolved := false }

/-- A "don" at time 1 s, as emitted by the Orchestrator. -/
def cex_don1 : Event := { id := "a", time := 1, type := "don", alignment_info := some cex_info }

/-- A "ka" at time 1 s. -/
def cex_ka : Event := { id := "b", time := 1, type := "ka", alignment_info := some cex_info }

/-- A "don" at 1.001 s. -/
def cex_don2 : Event :=
  { id := "c", time := 1001/1000, type := "don", alignment_info := some cex_info }

/-- C4 (counterexample): resolving `[don@1, ka@1, don@1.001]` shifts the `ka`
of the mixed group at time 1 onto 1.001 — exactly where the singleton `don`
group sits.  Two output events of different kinds share the exact same
instant, so neither the global all-distinct-by-1ms claim nor the
no-two-kinds-at-one-instant claim holds of the resolver's output. -/
theorem resolver_global_collision_cex :
    ((resolve_conflicts [cex_don1, cex_ka, cex_don2]).map (fun a => a.time))
      = [1, 1001/1000, 1001/1000]
    ∧ ((resolve_conflicts [cex_don1, cex_ka, cex_don2]).getD 1 default).type = "ka"
    ∧ ((resolve_conflicts [cex_don1, cex_ka, cex_don2]).getD 2 default).type = "don"
    ∧ ((resolve_conflicts [cex_don1, cex_ka, cex_don2]).getD 1 default).time
      = ((resolve_conflicts [cex_don1, cex_ka, cex_don2]).getD 2 default).time := by
  refine ⟨by decide, by decide, by decide, by decide⟩

theorem getD_enum_map_event (f : ℕ × Event → Event) (l : List Event) (i : ℕ)
    (hi : i < l.length) :
    (l.enum.map f).getD i default = f (i, l.getD i default) := by
  have h1 : i < (l.enum.map f).length := by
    rw [List.length_map, List.enum_length]; exact hi
  rw [List.getD_eq_getElem _ _ h1, List.getD_eq_getElem _ _ hi]
  rw [List.getElem_map]
  congr 1
  exact List.getElem_enum l i _

/-- C4 (amended): WITHIN one mixed-kind group the claim's arithmetic holds:
output count equals group size, the first event keeps its exact time, the
`i`-th (0-based) is shifted later by `i` ms, and — when the group's members
share one exact time, the common pipeline case — the group's output times are
pairwise at least 1 ms apart.  No guarantee relates different groups' outputs
(see the counterexample). -/
theorem mixed_kind_group_resolution (group : List Event)
    (h1 : 1 < group.length)
    (h2 : ((group.map (fun a => a.type)).dedup).length ≠ 1) :
    (resolve_group group).length = group.length
    ∧ (∀ i, i < group.length →
        ((resolve_group group).getD i default).time
          = (group.getD i default).time + (1/1000) * (i : ℚ))
    ∧ (resolve_group group).getD 0 default = group.getD 0 default
    ∧ ((∀ a ∈ group, a.time = (group.getD 0 default).time) →
        ∀ i j, i < group.length → j < group.length → i ≠ j →
          (1/1000 : ℚ) ≤ |((resolve_group group).getD i default).time
            - ((resolve_group group).getD j default).time|) := by
  obtain ⟨a, b, r, hg⟩ : ∃ a b r, group = a :: b :: r := by
    match group, h1 with
    | a :: b :: r, _ => exact ⟨a, b, r, rfl⟩
  subst hg
  have hmix : resolve_group (a :: b :: r)
      = (a :: b :: r).enum.map (fun (p : ℕ × Event) =>
          if p.1 = 0 then p.2
          else
            let info' := p.2.alignment_info.map
              (fun i => ({ i with conflict_resolved := true }))
            { p.2 with time := p.2.time + (1/1000) * (p.1 : ℚ), alignment_info := info' }) := by
    simp only [resolve_group]
    rw [if_neg h2]
  have hlen : (resolve_group (a :: b :: r)).length = (a :: b :: r).length := by
    rw [hmix, List.length_map, List.enum_length]
  have hget : ∀ i, i < (a :: b :: r).length →
      ((resolve_group (a :: b :: r)).getD i default).time
        = ((a :: b :: r).getD i default).time + (1/1000) * (i : ℚ) := by
    intro i hi
    rw [hmix, getD_enum_map_event _ _ i hi]
    by_cases h0 : i = 0
    · subst h0; simp
    · simp [h0]
  refine ⟨hlen, hget, ?_, ?_⟩
  · have h0 : (0 : ℕ) < (a :: b :: r).length := by simp
    rw [hmix, getD_enum_map_event _ _ 0 h0]
    simp
  · intro hall i j hi hj hij
    have hmemi : (a :: b :: r).getD i default ∈ (a :: b :: r) := by
      rw [List.getD_eq_getElem _ _ hi]; exact List.getElem_mem _
    have hmemj : (a :: b :: r).getD j default ∈ (a :: b :: r) := by
      rw [List.getD_eq_getElem _ _ hj]; exact List.getElem_mem _
    rw [hget i hi, hget j hj, hall _ hmemi, hall _ hmemj]
    have hne : ((i : ℚ) - (j : ℚ)) ≠ 0 := by
      intro hc
      apply hij
      exact_mod_cast sub_eq_zero.mp hc
    have habs : (1 : ℚ) ≤ |(i : ℚ) - (j : ℚ)| := by
      have : ((i : ℤ) - (j : ℤ)) ≠ 0 := by
        intro hc
        apply hij
        omega
      have h1 := Int.one_le_abs this
      calc (1 : ℚ) ≤ (|(i : ℤ) - (j : ℤ)| : ℤ) := by exact_mod_cast h1
        _ = |(i : ℚ) - (j : ℚ)| := by push_cast; rfl
    have hrw : ((a :: b :: r).getD 0 default).time + 1/1000 * (i : ℚ)
        - (((a :: b :: r).getD 0 default).time + 1/1000 * (j : ℚ))
        = (1/1000) * ((i : ℚ) - (j : ℚ)) := by ring
    rw [hrw, abs_mul]
    have : |(1/1000 : ℚ)| = 1/1000 := by norm_num
    rw [this]
    nlinarith [habs]

/-- C4 witness: the amended statement applied to the concrete mixed group
`[don@1, ka@1]`. -/
theorem mixed_kind_group_resolution_witness :
    (resolve_group [cex_don1, cex_ka]).length = 2
    ∧ ((resolve_group [cex_don1, cex_ka]).getD 1 default).time = 1 + (1/1000) * 1
    ∧ (1/1000 : ℚ) ≤ |((resolve_group [cex_don1, cex_ka]).getD 0 default).time
        - ((resolve_group [cex_don1, cex_ka]).getD 1 default).time| := by
  obtain ⟨hl, ht, h0, hd⟩ :=
    mixed_kind_group_resolution [cex_don1, cex_ka] (by decide) (by decide)
  refine ⟨hl.trans (by decide), ?_, ?_⟩
  · have := ht 1 (by decide)
    simpa using this
  · exact hd (by decide) 0 1 (by decide) (by decide) (by decide)

/-! ## C5 — Off mode with preservation -/

theorem insert_grouped_fresh (gs : List (ℚ × List Event)) (k : ℚ) (a : Event)
    (h : ∀ g ∈ gs, g.1 ≠ k) :
    insert_grouped gs k a = gs ++ [(k, [a])] := by
  induction gs with
  | nil => rfl
  | cons g rest ih =>
      obtain ⟨k', gl⟩ := g
      have hk : k' ≠ k := h _ (List.mem_cons_self _ _)
      simp only [insert_grouped]
      rw [if_neg hk, ih (fun g hg => h g (List.mem_cons_of_mem _ hg))]
      simp

theorem group_by_time_foldl_fresh (anns : List Event) :
    ∀ gs : List (ℚ × List Event),
      (∀ g ∈ gs, ∀ a ∈ anns, g.1 ≠ time_key a.time) →
      (anns.map (fun a => time_key a.time)).Nodup →
      anns.foldl (fun groups a => insert_grouped groups (time_key a.time) a) gs
        = gs ++ anns.map (fun a => (time_key a.time, [a])) := by
  induction anns with
  | nil => intro gs _ _; simp
  | cons a rest ih =>
      intro gs hdisj hnd
      have hnd' : (rest.map (fun a => time_key a.time)).Nodup := by
        rw [List.map_cons] at hnd
        exact (List.nodup_cons.mp hnd).2
      have hhead : time_key a.time ∉ rest.map (fun a => time_key a.time) := by
        rw [List.map_cons] at hnd
        exact (List.nodup_cons.mp hnd).1
      rw [List.foldl_cons,
        insert_grouped_fresh gs _ a (fun g hg => hdisj g hg a (List.mem_cons_self _ _))]
      rw [ih (gs ++ [(time_key a.time, [a])]) ?_ hnd']
      · simp
      · intro g hg b hb
        rcases List.mem_append.mp hg with hg | hg
        · exact hdisj g hg b (List.mem_cons_of_mem _ hb)
        · have hg1 : g = (time_key a.time, [a]) := by simpa using hg
          subst hg1
          intro hc
          apply hhead
          have hc' : time_key a.time = time_key b.time := hc
          rw [hc']
          exact List.mem_map.mpr ⟨b, hb, rfl⟩

theorem group_by_time_nodup (anns : List Event)
    (h : (anns.map (fun a => time_key a.time)).Nodup) :
    group_by_time anns = anns.map (fun a => (time_key a.time, [a])) := by
  have := group_by_time_foldl_fresh anns [] (by simp) h
  simpa [group_by_time] using this

theorem flatMap_singleton_groups (anns : List Event) :
    (anns.map (fun a => (time_key a.time, [a]))).flatMap (fun g => resolve_group g.2)
      = anns := by
  induction anns with
  | nil => rfl
  | cons a rest ih =>
      rw [List.map_cons, List.flatMap_cons, ih]
      rfl

/-- On a list whose microsecond-rounded times are pairwise distinct, the
Conflict Resolver is the identity. -/
theorem resolve_conflicts_nodup_keys (anns : List Event)
    (h : (anns.map (fun a => time_key a.time)).Nodup) :
    resolve_conflicts anns = anns := by
  rw [resolve_conflicts, group_by_time_nodup anns h, flatMap_singleton_groups]

/-- C5 (counterexample): two same-kind input events at the same time, aligned
with `preserve_off_grid = true` and `mode = Off`: the Conflict Resolver keeps
only the first, so the second input event does NOT reappear in the output —
the claim fails for inputs with coincident events. -/
theorem off_mode_duplicate_dropped_cex :
    (auto_align_annotations [sample_don, sample_don2] sample_bg .OFF_GRID .MEDIUM
        (3/5) (1/4) true 0).aligned_annotations
      = [preserved_copy sample_don "empty_grid"]
    ∧ (auto_align_annotations [sample_don, sample_don2] sample_bg .OFF_GRID .MEDIUM
        (3/5) (1/4) true 0).aligned_annotations.length
      ≠ ([sample_don, sample_don2] : List Event).length := by
  refine ⟨by decide, by decide⟩

/-- C5 (amended): with `preserve_off_grid = true` and `mode = Off` (empty
grid), and input events whose microsecond-rounded times are pairwise distinct,
every input event reappears in the output, in order, at its original time,
unmodified except for the attached info block (confidence 1, grid label
`off_beat`, adjustment 0, mode label `preserved`, reason `empty_grid`).
Coincident inputs are instead conflict-resolved (see the counterexample). -/
theorem off_mode_preserves_distinct_times (anns : List Event) (bg : BeatGrid)
    (sw : SwingAmount) (cs tol org : ℚ)
    (h : (anns.map (fun a => time_key a.time)).Nodup) :
    (auto_align_annotations anns bg .OFF_GRID sw cs tol true org).aligned_annotations
      = anns.map (fun a => preserved_copy a "empty_grid")
    ∧ (∀ a : Event,
        (preserved_copy a "empty_grid").id = a.id
        ∧ (preserved_copy a "empty_grid").time = a.time
        ∧ (preserved_copy a "empty_grid").type = a.type
        ∧ (preserved_copy a "empty_grid").alignment_info
          = some { original_time := a.time, adjustment := 0,
                   grid_position := "off_beat", quantize_mode := "preserved",
                   confidence := 1, reason := some "empty_grid",
                   conflict_resolved := false }) := by
  constructor
  · obtain ⟨h1, _⟩ := auto_align_empty_grid anns bg .OFF_GRID sw cs tol true org
      (generate_grid_off bg sw cs org)
    rw [h1]
    simp only [if_true]
    apply resolve_conflicts_nodup_keys
    simpa [List.map_map, Function.comp, preserved_copy] using h
  · intro a
    exact ⟨rfl, rfl, rfl, rfl⟩

/-- C5 witness: the amended statement at two events with distinct times. -/
theorem off_mode_preserves_distinct_times_witness :
    (auto_align_annotations [sample_don, sample_ka_late] sample_bg .OFF_GRID
        .MEDIUM (3/5) (1/4) true 0).aligned_annotations
      = [sample_don, sample_ka_late].map (fun a => preserved_copy a "empty_grid") :=
  (off_mode_preserves_distinct_times [sample_don, sample_ka_late] sample_bg
    .MEDIUM (3/5) (1/4) 0 (by decide)).1

/-! ## C9 — the 1/4T mode generates no grid -/

/-- C9: `TRIPLET_QUARTER` ("1/4T"), offered in the public mode catalogue, has
no branch in `_generate_quantization_grid`, so its grid is empty for every
timeline; the call then behaves exactly as in Off mode: annotations and stats
coincide with the `OFF_GRID` run, every event reported `empty_grid` and
preserved or dropped per the `preserve_off_beat` policy. -/
theorem triplet_quarter_empty_grid_as_off (anns : List Event) (bg : BeatGrid)
    (sw : SwingAmount) (cs tol : ℚ) (p : Bool) (org : ℚ) :
    generate_quantization_grid bg .TRIPLET_QUARTER sw cs org = []
    ∧ (auto_align_annotations anns bg .TRIPLET_QUARTER sw cs tol p org).aligned_annotations
      = (auto_align_annotations anns bg .OFF_GRID sw cs tol p org).aligned_annotations
    ∧ (auto_align_annotations anns bg .TRIPLET_QUARTER sw cs tol p org).alignment_stats
      = (auto_align_annotations anns bg .OFF_GRID sw cs tol p org).alignment_stats
    ∧ (auto_align_annotations anns bg .TRIPLET_QUARTER sw cs tol p org).aligned_annotations
      = (if p then resolve_conflicts (anns.map (fun a => preserved_copy a "empty_grid"))
         else []) := by
  obtain ⟨hT1, hT2⟩ := auto_align_empty_grid anns bg .TRIPLET_QUARTER sw cs tol p org
    (generate_grid_triplet_quarter bg sw cs org)
  obtain ⟨hO1, hO2⟩ := auto_align_empty_grid anns bg .OFF_GRID sw cs tol p org
    (generate_grid_off bg sw cs org)
  exact ⟨generate_grid_triplet_quarter bg sw cs org,
    by rw [hT1, hO1], by rw [hT2, hO2], hT1⟩

/-! ## C10 — quarter-swing grid has the quarter grid's times -/

/-- The raw quarter-swing point list in closed form: subdivision count 1 means
the single index `i = 0` is even, so the swing delay is never added and one
point is emitted per in-range beat, at the beat time, with strength 1. -/
theorem raw_quarter_swing_eq (bg : BeatGrid) (sw : SwingAmount) (cs org : ℚ) :
    raw_grid_points bg .QUARTER_SWING sw cs org
      = (bg.beats.map (fun b => b + org)).filterMap (fun b =>
          if b ≤ bg.duration then
            some { time := b, type := QuantizeMode.QUARTER_SWING.value ++ "_" ++ toString (0 : ℕ),
                   strength := 1, beat_position := "swing_on",
                   swing_r := some (if sw = .CUSTOM then cs else swing_ratios sw) }
          else none) := by
  simp only [raw_grid_points]
  induction bg.beats.map (fun b => b + org) with
  | nil => rfl
  | cons b t ih =>
      rw [List.flatMap_cons, List.filterMap_cons]
      by_cases hb : b ≤ bg.duration
      · rw [ih]
        simp [hb, show List.range 1 = [0] from rfl]
      · rw [ih]
        simp [hb]

theorem map_time_filterMap_beat (l : List ℚ) (dur : ℚ) (pt : ℚ → GridPoint)
    (hpt : ∀ b, (pt b).time = b) :
    ((l.filterMap (fun b => if b ≤ dur then some (pt b) else none)).map
        (fun p => p.time))
      = l.filter (fun b => decide (b ≤ dur)) := by
  induction l with
  | nil => rfl
  | cons b t ih =>
      rw [List.filterMap_cons, List.filter_cons]
      by_cases hb : b ≤ dur
      · simp [hb, ih, hpt]
      · simp [hb, ih]

/-- C10: for every timeline and swing setting, the `QUARTER_SWING` grid has
exactly the same point times as the `QUARTER` grid — one point per in-range
shifted beat, at the beat time — and every point of either grid has strength
1; with subdivision count 1 there is no odd subdivision, so the swing ratio
never affects an emitted time. -/
theorem quarter_swing_times_eq_quarter (bg : BeatGrid) (sw : SwingAmount)
    (cs org : ℚ) :
    (generate_quantization_grid bg .QUARTER_SWING sw cs org).map (fun p => p.time)
      = (generate_quantization_grid bg .QUARTER sw cs org).map (fun p => p.time)
    ∧ (∀ p ∈ generate_quantization_grid bg .QUARTER_SWING sw cs org, p.strength = 1)
    ∧ (∀ p ∈ generate_quantization_grid bg .QUARTER sw cs org, p.strength = 1)
    ∧ (raw_grid_points bg .QUARTER_SWING sw cs org).map (fun p => p.time)
      = (bg.beats.map (fun b => b + org)).filter (fun b => decide (b ≤ bg.duration)) := by
  have hqs : (raw_grid_points bg .QUARTER_SWING sw cs org).map (fun p => p.time)
      = (bg.beats.map (fun b => b + org)).filter (fun b => decide (b ≤ bg.duration)) := by
    rw [raw_quarter_swing_eq]
    exact map_time_filterMap_beat _ _ _ (fun b => rfl)
  have hq : (raw_grid_points bg .QUARTER sw cs org).map (fun p => p.time)
      = (bg.beats.map (fun b => b + org)).filter (fun b => decide (b ≤ bg.duration)) := by
    simp only [raw_grid_points]
    exact map_time_filterMap_beat _ _ _ (fun b => rfl)
  have hperm1 : ((generate_quantization_grid bg .QUARTER_SWING sw cs org).map
      (fun p => p.time)).Perm ((raw_grid_points bg .QUARTER_SWING sw cs org).map
      (fun p => p.time)) :=
    (sort_by_time_perm _).map _
  have hperm2 : ((generate_quantization_grid bg .QUARTER sw cs org).map
      (fun p => p.time)).Perm ((raw_grid_points bg .QUARTER sw cs org).map
      (fun p => p.time)) :=
    (sort_by_time_perm _).map _
  have hsort1 : ((generate_quantization_grid bg .QUARTER_SWING sw cs org).map
      (fun p => p.time)).Sorted (· ≤ ·) :=
    List.Pairwise.map _ (fun a b h => h) (sorted_sort_by_time _)
  have hsort2 : ((generate_quantization_grid bg .QUARTER sw cs org).map
      (fun p => p.time)).Sorted (· ≤ ·) :=
    List.Pairwise.map _ (fun a b h => h) (sorted_sort_by_time _)
  refine ⟨List.eq_of_perm_of_sorted (hperm1.trans ?_) hsort1 hsort2, ?_, ?_, hqs⟩
  · rw [hqs, ← hq]
    exact hperm2.symm
  · intro p hp
    have hp' := mem_sort_by_time.mp hp
    rw [raw_quarter_swing_eq] at hp'
    rcases List.mem_filterMap.mp hp' with ⟨b, _, hf⟩
    by_cases hguard : b ≤ bg.duration
    · rw [if_pos hguard] at hf
      cases Option.some.inj hf
      rfl
    · rw [if_neg hguard] at hf
      exact absurd hf (by simp)
  · intro p hp
    have hp' := mem_sort_by_time.mp hp
    simp only [raw_grid_points] at hp'
    rcases List.mem_filterMap.mp hp' with ⟨b, _, hf⟩
    by_cases hguard : b ≤ bg.duration
    · rw [if_pos hguard] at hf
      cases Option.some.inj hf
      rfl
    · rw [if_neg hguard] at hf
      exact absurd hf (by simp)

/-! ## C6 — the Matcher selects the earliest nearest grid point -/

theorem np_argmin_go_spec (l : List ℚ) :
    ∀ (cur best_idx : ℕ) (best : ℚ),
    (np_argmin_go l cur best_idx best = best_idx
      ∧ ∀ k, k < l.length → best ≤ l.getD k 0)
    ∨ (∃ m, m < l.length ∧ np_argmin_go l cur best_idx best = cur + m
        ∧ l.getD m 0 < best
        ∧ (∀ k, k < l.length → l.getD m 0 ≤ l.getD k 0)
        ∧ (∀ k, k < m → l.getD m 0 < l.getD k 0)) := by
  induction l with
  | nil =>
      intro cur bi b
      left
      exact ⟨rfl, fun k hk => absurd hk (by simp)⟩
  | cons x xs ih =>
      intro cur bi b
      simp only [np_argmin_go]
      by_cases hx : x < b
      · rw [if_pos hx]
        rcases ih (cur + 1) cur x with ⟨h1, h2⟩ | ⟨m, hm, h1, h2, h3, h4⟩
        · right
          refine ⟨0, by simp, by rw [h1]; omega, by simpa using hx, ?_, ?_⟩
          · intro k hk
            cases k with
            | zero => exact le_refl _
            | succ k' =>
                rw [List.getD_cons_zero, List.getD_cons_succ]
                exact h2 k' (by simpa using hk)
          · intro k hk
            exact absurd hk (Nat.not_lt_zero k)
        · right
          refine ⟨m + 1, by simpa using hm, by rw [h1]; omega, ?_, ?_, ?_⟩
          · rw [List.getD_cons_succ]
            exact lt_trans h2 hx
          · intro k hk
            cases k with
            | zero =>
                rw [List.getD_cons_succ, List.getD_cons_zero]
                exact le_of_lt h2
            | succ k' =>
                rw [List.getD_cons_succ, List.getD_cons_succ]
                exact h3 k' (by simpa using hk)
          · intro k hk
            cases k with
            | zero =>
                rw [List.getD_cons_succ, List.getD_cons_zero]
                exact h2
            | succ k' =>
                rw [List.getD_cons_succ, List.getD_cons_succ]
                exact h4 k' (by omega)
      · rw [if_neg hx]
        have hbx : b ≤ x := le_of_not_lt hx
        rcases ih (cur + 1) bi b with ⟨h1, h2⟩ | ⟨m, hm, h1, h2, h3, h4⟩
        · left
          refine ⟨h1, ?_⟩
          intro k hk
          cases k with
          | zero => simpa using hbx
          | succ k' =>
              rw [List.getD_cons_succ]
              exact h2 k' (by simpa using hk)
        · right
          refine ⟨m + 1, by simpa using hm, by rw [h1]; omega, ?_, ?_, ?_⟩
          · rw [List.getD_cons_succ]
            exact h2
          · intro k hk
            cases k with
            | zero =>
                rw [List.getD_cons_succ, List.getD_cons_zero]
                exact le_trans (le_of_lt h2) hbx
            | succ k' =>
                rw [List.getD_cons_succ, List.getD_cons_succ]
                exact h3 k' (by simpa using hk)
          · intro k hk
            cases k with
            | zero =>
                rw [List.getD_cons_succ, List.getD_cons_zero]
                exact lt_of_lt_of_le h2 hbx
            | succ k' =>
                rw [List.getD_cons_succ, List.getD_cons_succ]
                exact h4 k' (by omega)

/-- `np.argmin` on a non-empty list: a valid index whose entry is a minimum,
and every earlier entry is strictly larger (first-occurrence tie-break). -/
theorem np_argmin_spec (x : ℚ) (xs : List ℚ) :
    np_argmin (x :: xs) < (x :: xs).length
    ∧ (∀ k, k < (x :: xs).length →
        (x :: xs).getD (np_argmin (x :: xs)) 0 ≤ (x :: xs).getD k 0)
    ∧ (∀ k, k < np_argmin (x :: xs) →
        (x :: xs).getD (np_argmin (x :: xs)) 0 < (x :: xs).getD k 0) := by
  simp only [np_argmin]
  rcases np_argmin_go_spec xs 1 0 x with ⟨h1, h2⟩ | ⟨m, hm, h1, h2, h3, h4⟩
  · rw [h1]
    refine ⟨by simp, ?_, ?_⟩
    · intro k hk
      cases k with
      | zero => exact le_refl _
      | succ k' =>
          rw [List.getD_cons_zero, List.getD_cons_succ]
          exact h2 k' (by simpa using hk)
    · intro k hk
      exact absurd hk (Nat.not_lt_zero k)
  · have h1' : np_argmin_go xs 1 0 x = m + 1 := by rw [h1]; omega
    rw [h1']
    refine ⟨by simpa using hm, ?_, ?_⟩
    · intro k hk
      cases k with
      | zero =>
          rw [List.getD_cons_succ, List.getD_cons_zero]
          exact le_of_lt h2
      | succ k' =>
          rw [List.getD_cons_succ, List.getD_cons_succ]
          exact h3 k' (by simpa using hk)
    · intro k hk
      cases k with
      | zero =>
          rw [List.getD_cons_succ, List.getD_cons_zero]
          exact h2
      | succ k' =>
          rw [List.getD_cons_succ, List.getD_cons_succ]
          exact h4 k' (by omega)

theorem getD_map_abs (t : ℚ) (l : List GridPoint) (k : ℕ) (hk : k < l.length) :
    (l.map (fun p => |p.time - t|)).getD k 0 = |(l.getD k default).time - t| := by
  have hk' : k < (l.map (fun p => |p.time - t|)).length := by simpa using hk
  rw [List.getD_eq_getElem _ _ hk', List.getD_eq_getElem _ _ hk, List.getElem_map]

/-- Full behaviour of `_find_best_alignment` on a non-empty grid, shared by
the Matcher and confidence theorems. -/
theorem find_best_nearest_spec (t tol bi : ℚ) (grid : List GridPoint)
    (hne : grid ≠ []) :
    np_argmin (grid.map (fun p => |p.time - t|)) < grid.length
    ∧ (∀ j, j < grid.length →
        |(grid.getD (np_argmin (grid.map (fun p => |p.time - t|))) default).time - t|
          ≤ |(grid.getD j default).time - t|)
    ∧ (∀ j, j < np_argmin (grid.map (fun p => |p.time - t|)) →
        |(grid.getD (np_argmin (grid.map (fun p => |p.time - t|))) default).time - t|
          < |(grid.getD j default).time - t|)
    ∧ (|(grid.getD (np_argmin (grid.map (fun p => |p.time - t|))) default).time - t|
          ≤ tol * bi →
        find_best_alignment t grid tol bi
          = .aligned
              (grid.getD (np_argmin (grid.map (fun p => |p.time - t|))) default).time
              ((grid.getD (np_argmin (grid.map (fun p => |p.time - t|))) default).time - t)
              (grid.getD (np_argmin (grid.map (fun p => |p.time - t|))) default).type
              ((1 - |(grid.getD (np_argmin (grid.map (fun p => |p.time - t|))) default).time - t|
                  / (tol * bi)) * (7/10)
                + (grid.getD (np_argmin (grid.map (fun p => |p.time - t|))) default).strength
                  * (3/10))
              (|(grid.getD (np_argmin (grid.map (fun p => |p.time - t|))) default).time - t|))
    ∧ (¬ |(grid.getD (np_argmin (grid.map (fun p => |p.time - t|))) default).time - t|
          ≤ tol * bi →
        find_best_alignment t grid tol bi
          = .not_aligned "outside_tolerance"
              (some (|(grid.getD (np_argmin (grid.map (fun p => |p.time - t|))) default).time - t|))
              (some (tol * bi)))
    ∧ find_best_alignment t [] tol bi = .not_aligned "empty_grid" none none := by
  obtain ⟨g, gs, rfl⟩ : ∃ g gs, grid = g :: gs := by
    match grid, hne with
    | g :: gs, _ => exact ⟨g, gs, rfl⟩
  have hmap : |g.time - t| :: gs.map (fun p => |p.time - t|)
      = (g :: gs).map (fun p => |p.time - t|) := rfl
  obtain ⟨ha1, ha2, ha3⟩ := np_argmin_spec (|g.time - t|) (gs.map (fun p => |p.time - t|))
  rw [hmap] at ha1 ha2 ha3
  have hilen : np_argmin ((g :: gs).map (fun p => |p.time - t|)) < (g :: gs).length := by
    simpa using ha1
  have hmin : ∀ j, j < (g :: gs).length →
      |((g :: gs).getD (np_argmin ((g :: gs).map (fun p => |p.time - t|))) default).time - t|
        ≤ |((g :: gs).getD j default).time - t| := by
    intro j hj
    have h := ha2 j (by simpa using hj)
    rw [getD_map_abs t (g :: gs) _ hilen, getD_map_abs t (g :: gs) j hj] at h
    exact h
  have hstrict : ∀ j, j < np_argmin ((g :: gs).map (fun p => |p.time - t|)) →
      |((g :: gs).getD (np_argmin ((g :: gs).map (fun p => |p.time - t|))) default).time - t|
        < |((g :: gs).getD j default).time - t| := by
    intro j hj
    have hjlen : j < (g :: gs).length := lt_trans hj hilen
    have h := ha3 j hj
    rw [getD_map_abs t (g :: gs) _ hilen, getD_map_abs t (g :: gs) j hjlen] at h
    exact h
  refine ⟨hilen, hmin, hstrict, ?_, ?_, rfl⟩
  · intro hle
    have hle' : ((g :: gs).map (fun p => |p.time - t|)).getD
        (np_argmin ((g :: gs).map (fun p => |p.time - t|))) 0 ≤ tol * bi := by
      rw [getD_map_abs t (g :: gs) _ hilen]
      exact hle
    simp only [find_best_alignment]
    rw [if_pos hle', getD_map_abs t (g :: gs) _ hilen]
  · intro hgt
    have hgt' : ¬ ((g :: gs).map (fun p => |p.time - t|)).getD
        (np_argmin ((g :: gs).map (fun p => |p.time - t|))) 0 ≤ tol * bi := by
      rw [getD_map_abs t (g :: gs) _ hilen]
      exact hgt
    simp only [find_best_alignment]
    rw [if_neg hgt', getD_map_abs t (g :: gs) _ hilen]

/-- C6: `_find_best_alignment` selects the grid point at index
`np.argmin(distances)` — a minimizer of `|point.time - event_time|` whose
earlier indices are all strictly farther (earliest-index tie-break) — and
returns `Aligned` exactly when that minimal distance is at most
`tolerance * beat_interval` (boundary inclusive), else `NotAligned` with
reason `outside_tolerance` carrying the distance; an empty grid yields
`NotAligned` with reason `empty_grid`. -/
theorem matcher_nearest_spec (t tol bi : ℚ) (grid : List GridPoint)
    (hne : grid ≠ []) :
    np_argmin (grid.map (fun p => |p.time - t|)) < grid.length
    ∧ (∀ j, j < grid.length →
        |(grid.getD (np_argmin (grid.map (fun p => |p.time - t|))) default).time - t|
          ≤ |(grid.getD j default).time - t|)
    ∧ (∀ j, j < np_argmin (grid.map (fun p => |p.time - t|)) →
        |(grid.getD (np_argmin (grid.map (fun p => |p.time - t|))) default).time - t|
          < |(grid.getD j default).time - t|)
    ∧ (|(grid.getD (np_argmin (grid.map (fun p => |p.time - t|))) default).time - t|
          ≤ tol * bi →
        find_best_alignment t grid tol bi
          = .aligned
              (grid.getD (np_argmin (grid.map (fun p => |p.time - t|))) default).time
              ((grid.getD (np_argmin (grid.map (fun p => |p.time - t|))) default).time - t)
              (grid.getD (np_argmin (grid.map (fun p => |p.time - t|))) default).type
              ((1 - |(grid.getD (np_argmin (grid.map (fun p => |p.time - t|))) default).time - t|
                  / (tol * bi)) * (7/10)
                + (grid.getD (np_argmin (grid.map (fun p => |p.time - t|))) default).strength
                  * (3/10))
              (|(grid.getD (np_argmin (grid.map (fun p => |p.time - t|))) default).time - t|))
    ∧ (¬ |(grid.getD (np_argmin (grid.map (fun p => |p.time - t|))) default).time - t|
          ≤ tol * bi →
        find_best_alignment t grid tol bi
          = .not_aligned "outside_tolerance"
              (some (|(grid.getD (np_argmin (grid.map (fun p => |p.time - t|))) default).time - t|))
              (some (tol * bi)))
    ∧ find_best_alignment t [] tol bi = .not_aligned "empty_grid" none none :=
  find_best_nearest_spec t tol bi grid hne

/-- A two-point quarter grid used by the Matcher witnesses. -/
def gridW : List GridPoint :=
  [{ time := 0, type := "quarter", strength := 1, beat_position := "on_beat", swing_r := none },
   { time := 1/2, type := "quarter", strength := 1, beat_position := "on_beat", swing_r := none }]

/-- C6 witness: the Matcher spec at event time 0.1 over `gridW` with
tolerance 0.25 of a 0.5 s beat: nearest point 0 at distance 0.1 ≤ 0.125,
aligned. -/
theorem matcher_nearest_spec_witness :
    np_argmin (gridW.map (fun p => |p.time - (1/10 : ℚ)|)) < gridW.length
    ∧ find_best_alignment (1/10) gridW (1/4) (1/2)
      = .aligned 0 (0 - 1/10) "quarter"
          ((1 - (1/10) / ((1/4) * (1/2))) * (7/10) + 1 * (3/10)) (1/10) := by
  obtain ⟨h1, _, _, h4, _, _⟩ :=
    matcher_nearest_spec (1/10) (1/4) (1/2) gridW (by decide)
  refine ⟨h1, ?_⟩
  rw [h4 (by decide)]
  decide

/-! ## C7 — confidence formula and bounds -/

/-- C7: for an `Aligned` result with positive tolerance window and grid
strengths in [0,1], the confidence equals
`0.7 * (1 - d / tolerance_seconds) + 0.3 * strength` of the chosen point
(`d` is the returned original distance) and lies in [0, 1]. -/
theorem confidence_formula_bounds (t tol bi : ℚ) (grid : List GridPoint)
    (nt adj : ℚ) (gp : String) (c od : ℚ)
    (htol : 0 < tol * bi)
    (hs : ∀ p ∈ grid, 0 ≤ p.strength ∧ p.strength ≤ 1)
    (hres : find_best_alignment t grid tol bi = .aligned nt adj gp c od) :
    c = (7/10) * (1 - od / (tol * bi))
        + (3/10) * (grid.getD (np_argmin (grid.map (fun p => |p.time - t|))) default).strength
    ∧ 0 ≤ c ∧ c ≤ 1 := by
  have hne : grid ≠ [] := by
    intro h
    subst h
    exact absurd hres (by simp [find_best_alignment])
  obtain ⟨hilen, _, _, hpos, hneg, _⟩ := find_best_nearest_spec t tol bi grid hne
  by_cases hle : |(grid.getD (np_argmin (grid.map (fun p => |p.time - t|))) default).time - t|
      ≤ tol * bi
  · rw [hpos hle] at hres
    rw [AlignmentResult.aligned.injEq] at hres
    obtain ⟨_, _, _, hc, hod⟩ := hres
    have hmem : grid.getD (np_argmin (grid.map (fun p => |p.time - t|))) default ∈ grid := by
      rw [List.getD_eq_getElem _ _ hilen]
      exact List.getElem_mem _
    obtain ⟨hs0, hs1⟩ := hs _ hmem
    have hd0 : 0 ≤ |(grid.getD (np_argmin (grid.map (fun p => |p.time - t|))) default).time - t| :=
      abs_nonneg _
    have hq0 : 0 ≤ |(grid.getD (np_argmin (grid.map (fun p => |p.time - t|))) default).time - t|
        / (tol * bi) := div_nonneg hd0 (le_of_lt htol)
    have hq1 : |(grid.getD (np_argmin (grid.map (fun p => |p.time - t|))) default).time - t|
        / (tol * bi) ≤ 1 := (div_le_one htol).mpr hle
    constructor
    · rw [← hc, ← hod]
      ring
    · constructor
      · rw [← hc]
        nlinarith
      · rw [← hc]
        nlinarith
  · rw [hneg hle] at hres
    exact absurd hres (by simp)

/-- C7 witness: the formula and bounds at the concrete aligned call of the
Matcher witness (confidence `(1 - 0.1/0.125) * 0.7 + 1 * 0.3 = 11/25`). -/
theorem confidence_formula_bounds_witness :
    (11/25 : ℚ) = (7/10) * (1 - (1/10) / ((1/4) * (1/2)))
        + (3/10) * (gridW.getD (np_argmin (gridW.map (fun p => |p.time - (1/10 : ℚ)|))) default).strength
    ∧ (0 : ℚ) ≤ 11/25 ∧ (11/25 : ℚ) ≤ 1 :=
  confidence_formula_bounds (1/10) (1/4) (1/2) gridW 0 (0 - 1/10) "quarter"
    (11/25) (1/10) (by norm_num) (by decide) (by decide)

/-! ## C8 — grid monotone and bounded by duration; no lower guard at 0 -/

theorem swing_r_ge_half (sw : SwingAmount) (cs : ℚ) (hcs : 1/2 ≤ cs) :
    1/2 ≤ (if sw = SwingAmount.CUSTOM then cs else swing_ratios sw) := by
  cases sw
  case CUSTOM => simpa using hcs
  all_goals rw [if_neg (by decide)]
  all_goals norm_num [swing_ratios]

theorem sub_term_nonneg (i : ℕ) (bi S : ℚ) (hbi : 0 ≤ bi) (hS : 0 ≤ S) :
    0 ≤ (i : ℚ) * bi / S :=
  div_nonneg (mul_nonneg (Nat.cast_nonneg i) hbi) hS

theorem swing_delay_nonneg (bi S q : ℚ) (hbi : 0 ≤ bi) (hS : 0 ≤ S)
    (hq : 1/2 ≤ q) : 0 ≤ (bi / S) * (q - 1/2) * 2 :=
  mul_nonneg (mul_nonneg (div_nonneg hbi hS) (by linarith)) (by norm_num)

theorem mem_raw_time_le_duration (bg : BeatGrid) (qm : QuantizeMode)
    (sw : SwingAmount) (cs org : ℚ) :
    ∀ p ∈ raw_grid_points bg qm sw cs org, p.time ≤ bg.duration := by
  intro p hp
  cases qm <;> simp only [raw_grid_points] at hp
  case QUARTER =>
    rcases List.mem_filterMap.mp hp with ⟨b, _, hf⟩
    split_ifs at hf with hg
    cases Option.some.inj hf
    exact hg
  case EIGHTH =>
    rcases List.mem_flatMap.mp hp with ⟨b, _, hmem⟩
    split_ifs at hmem with hg hg2
    · rcases List.mem_cons.mp hmem with rfl | hmem2
      · exact hg
      · rcases List.mem_singleton.mp hmem2 with rfl
        exact hg2
    · rcases List.mem_cons.mp hmem with rfl | hmem2
      · exact hg
      · exact absurd hmem2 (by simp)
    · exact absurd hmem (by simp)
  case SIXTEENTH =>
    rcases List.mem_flatMap.mp hp with ⟨b, _, hmem⟩
    split_ifs at hmem with hg
    · rcases List.mem_filterMap.mp hmem with ⟨i, _, hf⟩
      split_ifs at hf <;>
        (cases Option.some.inj hf
         dsimp only
         assumption)
    · exact absurd hmem (by simp)
  case EIGHTH_SWING =>
    set q := (if sw = SwingAmount.CUSTOM then cs else swing_ratios sw) with hq
    rcases List.mem_flatMap.mp hp with ⟨b, _, hmem⟩
    split_ifs at hmem with hg
    · rcases List.mem_filterMap.mp hmem with ⟨i, _, hf⟩
      split_ifs at hf <;>
        (cases Option.some.inj hf
         dsimp only
         assumption)
    · exact absurd hmem (by simp)
  case QUARTER_SWING =>
    set q := (if sw = SwingAmount.CUSTOM then cs else swing_ratios sw) with hq
    rcases List.mem_flatMap.mp hp with ⟨b, _, hmem⟩
    split_ifs at hmem with hg
    · rcases List.mem_filterMap.mp hmem with ⟨i, _, hf⟩
      split_ifs at hf <;>
        (cases Option.some.inj hf
         dsimp only
         assumption)
    · exact absurd hmem (by simp)
  case SIXTEENTH_SWING =>
    set q := (if sw = SwingAmount.CUSTOM then cs else swing_ratios sw) with hq
    rcases List.mem_flatMap.mp hp with ⟨b, _, hmem⟩
    split_ifs at hmem with hg
    · rcases List.mem_filterMap.mp hmem with ⟨i, _, hf⟩
      split_ifs at hf <;>
        (cases Option.some.inj hf
         dsimp only
         assumption)
    · exact absurd hmem (by simp)
  case TRIPLET_EIGHTH =>
    rcases List.mem_flatMap.mp hp with ⟨b, _, hmem⟩
    split_ifs at hmem with hg
    · rcases List.mem_filterMap.mp hmem with ⟨i, _, hf⟩
      split_ifs at hf <;>
        (cases Option.some.inj hf
         dsimp only
         assumption)
    · exact absurd hmem (by simp)
  case TRIPLET_QUARTER => exact absurd hp (by simp)
  case OFF_GRID => exact absurd hp (by simp)

theorem mem_raw_time_nonneg (bg : BeatGrid) (qm : QuantizeMode)
    (sw : SwingAmount) (cs org : ℚ)
    (hnn : ∀ b ∈ bg.beats, 0 ≤ b + org) (hbi : 0 ≤ bg.beat_interval)
    (hcs : 1/2 ≤ cs) :
    ∀ p ∈ raw_grid_points bg qm sw cs org, 0 ≤ p.time := by
  have hsr := swing_r_ge_half sw cs hcs
  intro p hp
  cases qm <;> simp only [raw_grid_points] at hp
  case QUARTER =>
    rcases List.mem_filterMap.mp hp with ⟨b, hb, hf⟩
    rcases List.mem_map.mp hb with ⟨b0, hb0, rfl⟩
    have hb' := hnn b0 hb0
    split_ifs at hf with hg
    cases Option.some.inj hf
    exact hb'
  case EIGHTH =>
    rcases List.mem_flatMap.mp hp with ⟨b, hb, hmem⟩
    rcases List.mem_map.mp hb with ⟨b0, hb0, rfl⟩
    have hb' := hnn b0 hb0
    split_ifs at hmem with hg hg2
    · rcases List.mem_cons.mp hmem with rfl | hmem2
      · exact hb'
      · rcases List.mem_singleton.mp hmem2 with rfl
        exact add_nonneg hb' (div_nonneg hbi (by norm_num))
    · rcases List.mem_cons.mp hmem with rfl | hmem2
      · exact hb'
      · exact absurd hmem2 (by simp)
    · exact absurd hmem (by simp)
  case SIXTEENTH =>
    rcases List.mem_flatMap.mp hp with ⟨b, hb, hmem⟩
    rcases List.mem_map.mp hb with ⟨b0, hb0, rfl⟩
    have hb' := hnn b0 hb0
    split_ifs at hmem with hg
    · rcases List.mem_filterMap.mp hmem with ⟨i, _, hf⟩
      split_ifs at hf <;>
        (cases Option.some.inj hf
         dsimp only
         exact add_nonneg hb' (sub_term_nonneg i bg.beat_interval 4 hbi (by norm_num)))
    · exact absurd hmem (by simp)
  case EIGHTH_SWING =>
    set q := (if sw = SwingAmount.CUSTOM then cs else swing_ratios sw) with hq
    rcases List.mem_flatMap.mp hp with ⟨b, hb, hmem⟩
    rcases List.mem_map.mp hb with ⟨b0, hb0, rfl⟩
    have hb' := hnn b0 hb0
    split_ifs at hmem with hg
    · rcases List.mem_filterMap.mp hmem with ⟨i, _, hf⟩
      split_ifs at hf <;>
        (cases Option.some.inj hf
         dsimp only
         first
           | exact add_nonneg hb'
               (sub_term_nonneg i bg.beat_interval (((2:ℕ) : ℚ)) hbi (by norm_num))
           | exact add_nonneg
               (add_nonneg hb'
                 (sub_term_nonneg i bg.beat_interval (((2:ℕ) : ℚ)) hbi (by norm_num)))
               (swing_delay_nonneg bg.beat_interval (((2:ℕ) : ℚ)) _ hbi (by norm_num) hsr))
    · exact absurd hmem (by simp)
  case QUARTER_SWING =>
    set q := (if sw = SwingAmount.CUSTOM then cs else swing_ratios sw) with hq
    rcases List.mem_flatMap.mp hp with ⟨b, hb, hmem⟩
    rcases List.mem_map.mp hb with ⟨b0, hb0, rfl⟩
    have hb' := hnn b0 hb0
    split_ifs at hmem with hg
    · rcases List.mem_filterMap.mp hmem with ⟨i, _, hf⟩
      split_ifs at hf <;>
        (cases Option.some.inj hf
         dsimp only
         first
           | exact add_nonneg hb'
               (sub_term_nonneg i bg.beat_interval (((1:ℕ) : ℚ)) hbi (by norm_num))
           | exact add_nonneg
               (add_nonneg hb'
                 (sub_term_nonneg i bg.beat_interval (((1:ℕ) : ℚ)) hbi (by norm_num)))
               (swing_delay_nonneg bg.beat_interval (((1:ℕ) : ℚ)) _ hbi (by norm_num) hsr))
    · exact absurd hmem (by simp)
  case SIXTEENTH_SWING =>
    set q := (if sw = SwingAmount.CUSTOM then cs else swing_ratios sw) with hq
    rcases List.mem_flatMap.mp hp with ⟨b, hb, hmem⟩
    rcases List.mem_map.mp hb with ⟨b0, hb0, rfl⟩
    have hb' := hnn b0 hb0
    split_ifs at hmem with hg
    · rcases List.mem_filterMap.mp hmem with ⟨i, _, hf⟩
      split_ifs at hf <;>
        (cases Option.some.inj hf
         dsimp only
         first
           | exact add_nonneg hb'
               (sub_term_nonneg i bg.beat_interval (((4:ℕ) : ℚ)) hbi (by norm_num))
           | exact add_nonneg
               (add_nonneg hb'
                 (sub_term_nonneg i bg.beat_interval (((4:ℕ) : ℚ)) hbi (by norm_num)))
               (swing_delay_nonneg bg.beat_interval (((4:ℕ) : ℚ)) _ hbi (by norm_num) hsr))
    · exact absurd hmem (by simp)
  case TRIPLET_EIGHTH =>
    rcases List.mem_flatMap.mp hp with ⟨b, hb, hmem⟩
    rcases List.mem_map.mp hb with ⟨b0, hb0, rfl⟩
    have hb' := hnn b0 hb0
    split_ifs at hmem with hg
    · rcases List.mem_filterMap.mp hmem with ⟨i, _, hf⟩
      split_ifs at hf <;>
        (cases Option.some.inj hf
         dsimp only
         exact add_nonneg hb' (sub_term_nonneg i bg.beat_interval 3 hbi (by norm_num)))
    · exact absurd hmem (by simp)
  case TRIPLET_QUARTER => exact absurd hp (by simp)
  case OFF_GRID => exact absurd hp (by simp)

/-- C8 (counterexample): shifting the beats by a negative `measure_origin`
emits grid points at negative times — `_generate_quantization_grid` has upper
guards (`<= duration`) but no lower guard at 0, so "no grid point precedes 0"
fails for some offsets. -/
theorem negative_grid_point_cex :
    generate_quantization_grid sample_bg .QUARTER .MEDIUM (3/5) (-2)
      = [{ time := -2, type := "quarter", strength := 1, beat_position := "on_beat", swing_r := none },
         { time := -3/2, type := "quarter", strength := 1, beat_position := "on_beat", swing_r := none },
         { time := -1, type := "quarter", strength := 1, beat_position := "on_beat", swing_r := none }]
    ∧ ((generate_quantization_grid sample_bg .QUARTER .MEDIUM (3/5) (-2)).getD 0 default).time < 0 := by
  refine ⟨by decide, by decide⟩

/-- C8 (amended): for every mode, timeline and measure-origin offset the
generated grid is sorted non-decreasing in time and no point exceeds the
duration; but points CAN precede 0 (no lower guard exists — see the
counterexample).  When every shifted beat is non-negative, the beat interval
is non-negative and the custom swing ratio is at least 1/2, all points are
also non-negative. -/
theorem grid_sorted_le_duration (bg : BeatGrid) (qm : QuantizeMode)
    (sw : SwingAmount) (cs org : ℚ) :
    (generate_quantization_grid bg qm sw cs org).Pairwise (fun a b => a.time ≤ b.time)
    ∧ (∀ p ∈ generate_quantization_grid bg qm sw cs org, p.time ≤ bg.duration)
    ∧ ((∀ b ∈ bg.beats, 0 ≤ b + org) → 0 ≤ bg.beat_interval → 1/2 ≤ cs →
        ∀ p ∈ generate_quantization_grid bg qm sw cs org, 0 ≤ p.time) := by
  refine ⟨sorted_sort_by_time _, ?_, ?_⟩
  · intro p hp
    exact mem_raw_time_le_duration bg qm sw cs org p (mem_sort_by_time.mp hp)
  · intro hnn hbi hcs p hp
    exact mem_raw_time_nonneg bg qm sw cs org hnn hbi hcs p (mem_sort_by_time.mp hp)

/-- C8 witness: sortedness, duration bound and non-negativity at a concrete
swing-mode grid over the sample timeline. -/
theorem grid_sorted_le_duration_witness :
    ((generate_quantization_grid sample_bg .EIGHTH_SWING .HEAVY (3/5) 0).getD 1 default).time
      ≤ sample_bg.duration
    ∧ 0 ≤ ((generate_quantization_grid sample_bg .EIGHTH_SWING .HEAVY (3/5) 0).getD 1 default).time
    ∧ (generate_quantization_grid sample_bg .EIGHTH_SWING .HEAVY (3/5) 0).Pairwise
        (fun a b => a.time ≤ b.time) := by
  obtain ⟨hs, hd, hn⟩ := grid_sorted_le_duration sample_bg .EIGHTH_SWING .HEAVY (3/5) 0
  have hmem : (generate_quantization_grid sample_bg .EIGHTH_SWING .HEAVY (3/5) 0).getD 1 default
      ∈ generate_quantization_grid sample_bg .EIGHTH_SWING .HEAVY (3/5) 0 := by
    rw [List.getD_eq_getElem _ _ (by decide)]
    exact List.getElem_mem _
  exact ⟨hd _ hmem, hn (by decide) (by decide) (by decide) _ hmem, hs⟩

end DaguDaren
